import Mathlib

/-! HiddenS: depth sort and draw loop of `src/script.js`

A shallow embedding of the part of `script.js` that orders the four rectangles by
depth (line 109) and draws them one after the other (lines 112-133).

Modelling conventions.

* A JavaScript number is modelled by its exact value, a rational. Only finite numbers
  are values of the model; `undefined` and `NaN` are `none`. The sort consults only the
  sign of `a.vertices[2] - b.vertices[2]`; for finite doubles the rounded difference has
  the sign of the exact one, and rounding a decimal literal to a double is monotone and
  keeps the literals of the program distinct.
* `Array.prototype.sort` is the host's: ECMAScript requires a stable sort, and for a
  consistent comparator the result of a stable sort is determined by the input. It is
  modelled by the stable insertion sort `sort` below; `sort_unique` shows that, when
  every shape has a depth, each stable sort by depth returns the same list. When a depth
  is missing the comparator is not consistent and the model is one admissible order.
* The WebGL context is an explicit state `GLState`; each `gl.` call of `drawRectangle`
  is a state transformer that also appends itself to the log of calls.
* `new Float32Array(xs)` converts element by element; the conversion of one number
  (`Math.fround`) is a parameter `fround` of the model.
-/

namespace HiddenS

/-! ## Shapes -/

/-- An entry of `rectangles`: an object with the single property `vertices`. -/
structure Shape where
  vertices : List ℚ
deriving DecidableEq, Repr

/-- The first literal of `rectangles` (lines 73-80): farthest, z = -0.6, red. -/
def red : Shape :=
  { vertices := [
      -0.8, -0.8, -0.6, 1.0, 0.0, 0.0, 1.0,
      0.8, -0.8, -0.6, 1.0, 0.0, 0.0, 1.0,
      0.8, 0.8, -0.6, 1.0, 0.0, 0.0, 1.0,
      -0.8, 0.8, -0.6, 1.0, 0.0, 0.0, 1.0] }

/-- The second literal of `rectangles` (lines 81-88): middle, z = -0.3, green. -/
def green : Shape :=
  { vertices := [
      -0.6, -0.6, -0.3, 0.0, 1.0, 0.0, 1.0,
      0.6, -0.6, -0.3, 0.0, 1.0, 0.0, 1.0,
      0.6, 0.6, -0.3, 0.0, 1.0, 0.0, 1.0,
      -0.6, 0.6, -0.3, 0.0, 1.0, 0.0, 1.0] }

/-- The third literal of `rectangles` (lines 89-96): closer, z = 0.0, blue. -/
def blue : Shape :=
  { vertices := [
      -0.4, -0.4, 0.0, 0.0, 0.0, 1.0, 1.0,
      0.4, -0.4, 0.0, 0.0, 0.0, 1.0, 1.0,
      0.4, 0.4, 0.0, 0.0, 0.0, 1.0, 1.0,
      -0.4, 0.4, 0.0, 0.0, 0.0, 1.0, 1.0] }

/-- The fourth literal of `rectangles` (lines 97-104): closest, z = 0.3, pink. -/
def pink : Shape :=
  { vertices := [
      -0.2, -0.2, 0.3, 1.0, 0.0, 1.0, 1.0,
      0.2, -0.2, 0.3, 1.0, 0.0, 1.0, 1.0,
      0.2, 0.2, 0.3, 1.0, 0.0, 1.0, 1.0,
      -0.2, 0.2, 0.3, 1.0, 0.0, 1.0, 1.0] }

/-- The array literal `rectangles` of lines 72-105, in source order. -/
def rectangles : List Shape := [red, green, blue, pink]

/-- The depth the comparator reads, `s.vertices[2]`; `none` is `undefined`. -/
def depth (s : Shape) : Option ℚ := s.vertices[2]?

/-! ## The depth sort (line 109) -/

/-- The arrow function `(a, b) => a.vertices[2] - b.vertices[2]`. The difference of two
numbers is a number; as soon as one operand is `undefined` the result is `NaN` (`none`). -/
def comparefn (a b : Shape) : Option ℚ :=
  match a.vertices[2]?, b.vertices[2]? with
  | some x, some y => some (x - y)
  | _, _ => none

/-- ECMAScript `SortCompare` for a user comparator: the comparator's result, with `NaN`
replaced by `+0`. -/
def SortCompare {α : Type} (cmp : α → α → Option ℚ) (x y : α) : ℚ :=
  match cmp x y with
  | some v => v
  | none => 0

/-- Insert `x`, which precedes every element of `l` in the input, into the sorted `l`:
`x` moves behind `y` only when it compares strictly greater, so ties keep the input
order. -/
def insertSorted {α : Type} (cmp : α → α → Option ℚ) (x : α) : List α → List α
  | [] => [x]
  | y :: ys =>
    if 0 < SortCompare cmp x y then y :: insertSorted cmp x ys else x :: y :: ys

/-- The method `Array.prototype.sort(cmp)`: a stable sort by the comparator. -/
def sort {α : Type} (cmp : α → α → Option ℚ) : List α → List α
  | [] => []
  | x :: xs => insertSorted cmp x (sort cmp xs)

/-- Shape `a` may be painted before shape `b`: both depths are numbers and the depth of
`a` is at most the depth of `b`. -/
def DepthLE (a b : Shape) : Prop :=
  ∃ p q : ℚ, depth a = some p ∧ depth b = some q ∧ p ≤ q

/-! ## The WebGL context -/

/-- The constants of the context that the program passes, with their neighbours. -/
inductive GLenum
  | ARRAY_BUFFER
  | ELEMENT_ARRAY_BUFFER
  | STREAM_DRAW
  | STATIC_DRAW
  | DYNAMIC_DRAW
  | FLOAT
  | TRIANGLES
  | TRIANGLE_FAN
  | COLOR_BUFFER_BIT
deriving DecidableEq, Repr

/-- One call on the context, with its arguments; for `createBuffer`, with the buffer it
returned. -/
inductive GLCall
  | clearColor (r g b a : ℚ)
  | clear (mask : GLenum)
  | createBuffer (result : Nat)
  | bindBuffer (target : GLenum) (buffer : Nat)
  | bufferData (target : GLenum) (data : List ℚ) (usage : GLenum)
  | vertexAttribPointer (index : Int) (size : Nat) (type : GLenum) (normalized : Bool)
      (stride offset : Nat)
  | enableVertexAttribArray (index : Int)
  | drawArrays (mode : GLenum) (first count : Nat)
deriving DecidableEq, Repr

/-- The state of one vertex attribute slot: whether its array is enabled, and the view
set by the last successful `vertexAttribPointer`, with the buffer that was bound to
`ARRAY_BUFFER` at that moment. -/
structure VertexAttrib where
  enabled : Bool
  buffer : Option Nat
  size : Nat
  type : GLenum
  normalized : Bool
  stride : Nat
  offset : Nat

/-- The part of the context's state that the calls of `drawRectangle` read or write,
and the log of the calls made so far, oldest first. -/
structure GLState where
  MAX_VERTEX_ATTRIBS : Nat
  nextBuffer : Nat
  arrayBuffer : Option Nat
  elementArrayBuffer : Option Nat
  bufferStore : Nat → Option (List ℚ)
  attribs : Int → VertexAttrib
  colorClearValue : ℚ × ℚ × ℚ × ℚ
  calls : List GLCall

/-- The value of `Float32Array.BYTES_PER_ELEMENT`. -/
def BYTES_PER_ELEMENT : Nat := 4

/-- The constructor call `new Float32Array(xs)`: one element per element of `xs`, each
converted by `fround`. -/
def Float32Array (fround : ℚ → ℚ) (xs : List ℚ) : List ℚ := xs.map fround

/-- The call `gl.clearColor(r, g, b, a)`. -/
def GLState.clearColor (gl : GLState) (r g b a : ℚ) : GLState :=
  { gl with colorClearValue := (r, g, b, a), calls := gl.calls ++ [GLCall.clearColor r g b a] }

/-- The call `gl.clear(mask)`; the pixels are not part of the model. -/
def GLState.clear (gl : GLState) (mask : GLenum) : GLState :=
  { gl with calls := gl.calls ++ [GLCall.clear mask] }

/-- The call `gl.createBuffer()`: a buffer that no earlier call returned, without a data
store. -/
def GLState.createBuffer (gl : GLState) : Nat × GLState :=
  (gl.nextBuffer,
    { gl with nextBuffer := gl.nextBuffer + 1, calls := gl.calls ++ [GLCall.createBuffer gl.nextBuffer] })

/-- The call `gl.bindBuffer(target, buffer)`. -/
def GLState.bindBuffer (gl : GLState) (target : GLenum) (buffer : Nat) : GLState :=
  let gl1 := { gl with calls := gl.calls ++ [GLCall.bindBuffer target buffer] }
  match target with
  | GLenum.ARRAY_BUFFER => { gl1 with arrayBuffer := some buffer }
  | GLenum.ELEMENT_ARRAY_BUFFER => { gl1 with elementArrayBuffer := some buffer }
  | _ => gl1

/-- The buffer bound to `target`, if any. -/
def GLState.binding (gl : GLState) (target : GLenum) : Option Nat :=
  match target with
  | GLenum.ARRAY_BUFFER => gl.arrayBuffer
  | GLenum.ELEMENT_ARRAY_BUFFER => gl.elementArrayBuffer
  | _ => none

/-- The call `gl.bufferData(target, data, usage)`: the buffer bound to `target` gets a
new data store holding `data`; without a bound buffer the call is an error and changes
nothing. -/
def GLState.bufferData (gl : GLState) (target : GLenum) (data : List ℚ) (usage : GLenum) :
    GLState :=
  let gl1 := { gl with calls := gl.calls ++ [GLCall.bufferData target data usage] }
  match gl.binding target with
  | some b => { gl1 with bufferStore := fun n => if n = b then some data else gl.bufferStore n }
  | none => gl1

/-- An attribute index the context accepts. A location `-1` is not one. -/
def GLState.validIndex (gl : GLState) (index : Int) : Bool :=
  decide (0 ≤ index) && decide (index < gl.MAX_VERTEX_ATTRIBS)

/-- The call `gl.vertexAttribPointer(index, size, type, normalized, stride, offset)`:
the slot `index` views the buffer bound to `ARRAY_BUFFER`. An index out of range, a size
outside 1..4, a type other than `FLOAT`, a stride above 255, a stride or offset that is
not a multiple of the component size, or a non-zero offset without a bound buffer is an
error and changes nothing. -/
def GLState.vertexAttribPointer (gl : GLState) (index : Int) (size : Nat) (type : GLenum)
    (normalized : Bool) (stride offset : Nat) : GLState :=
  let gl1 :=
    { gl with calls := gl.calls ++ [GLCall.vertexAttribPointer index size type normalized stride offset] }
  if gl.validIndex index && decide (1 ≤ size) && decide (size ≤ 4) && decide (type = GLenum.FLOAT)
      && decide (stride ≤ 255) && decide (stride % BYTES_PER_ELEMENT = 0)
      && decide (offset % BYTES_PER_ELEMENT = 0)
      && (gl.arrayBuffer.isSome || decide (offset = 0)) then
    { gl1 with
      attribs := fun n =>
        if n = index then
          { enabled := (gl.attribs index).enabled, buffer := gl.arrayBuffer, size := size,
            type := type, normalized := normalized, stride := stride, offset := offset }
        else gl.attribs n }
  else gl1

/-- The call `gl.enableVertexAttribArray(index)`. -/
def GLState.enableVertexAttribArray (gl : GLState) (index : Int) : GLState :=
  let gl1 := { gl with calls := gl.calls ++ [GLCall.enableVertexAttribArray index] }
  if gl.validIndex index then
    { gl1 with
      attribs := fun n => if n = index then { gl.attribs index with enabled := true } else gl.attribs n }
  else gl1

/-- The call `gl.drawArrays(mode, first, count)`; the pixels are not part of the model,
the call is recorded. -/
def GLState.drawArrays (gl : GLState) (mode : GLenum) (first count : Nat) : GLState :=
  { gl with calls := gl.calls ++ [GLCall.drawArrays mode first count] }

/-- The indices, in a buffer of floats, of the components that an attribute view of
`size` floats with byte stride `stride` and byte offset `offset` reads for vertex `i`.
A stride of 0 stands for tightly packed components. -/
def attribIndices (size stride offset i : Nat) : List Nat :=
  let step := if stride = 0 then size * BYTES_PER_ELEMENT else stride
  (List.range size).map fun k => (offset + i * step + k * BYTES_PER_ELEMENT) / BYTES_PER_ELEMENT

/-- The elements of `data` at the indices `js`, in order; `none` as soon as one index is
outside `data`. -/
def readAll (data : List ℚ) : List Nat → Option (List ℚ)
  | [] => some []
  | j :: js =>
    match data[j]?, readAll data js with
    | some x, some xs => some (x :: xs)
    | _, _ => none

/-- The components the enabled attribute array `index` delivers for vertex `i` in state
`gl`; `none` when the array is disabled, has no buffer with a data store, or reads
outside the store. -/
def vertexFetch (gl : GLState) (index : Int) (i : Nat) : Option (List ℚ) :=
  let a := gl.attribs index
  if a.enabled then
    match a.buffer with
    | none => none
    | some b =>
      match gl.bufferStore b with
      | none => none
      | some data => readAll data (attribIndices a.size a.stride a.offset i)
  else none

/-- The triangles, as triples of vertex numbers, that `drawArrays(mode, first, count)`
assembles. In a fan every triangle starts at the first vertex. -/
def assembleTriangles (mode : GLenum) (first count : Nat) : List (Nat × Nat × Nat) :=
  match mode with
  | GLenum.TRIANGLES =>
    (List.range (count / 3)).map fun k => (first + 3 * k, first + 3 * k + 1, first + 3 * k + 2)
  | GLenum.TRIANGLE_FAN =>
    (List.range (count - 2)).map fun k => (first, first + k + 1, first + k + 2)
  | _ => []

/-! ## The draw loop (lines 112-133) -/

/-- The object `programInfo.attribLocations` of lines 64-69: the two locations that
`getAttribLocation` returned, `-1` for an attribute the program does not have. -/
structure AttribLocations where
  vertexPosition : Int
  vertexColor : Int

/-- The object `programInfo` of lines 64-69. -/
structure ProgramInfo where
  attribLocations : AttribLocations

/-- The function `drawRectangle` of lines 112-127, call by call. -/
def drawRectangle (fround : ℚ → ℚ) (programInfo : ProgramInfo) (rect : Shape)
    (gl : GLState) : GLState :=
  let (vertexBuffer, gl) := gl.createBuffer
  let gl := gl.bindBuffer GLenum.ARRAY_BUFFER vertexBuffer
  let gl := gl.bufferData GLenum.ARRAY_BUFFER (Float32Array fround rect.vertices) GLenum.STATIC_DRAW
  let gl := gl.vertexAttribPointer programInfo.attribLocations.vertexPosition 3 GLenum.FLOAT false
    (7 * BYTES_PER_ELEMENT) 0
  let gl := gl.enableVertexAttribArray programInfo.attribLocations.vertexPosition
  let gl := gl.vertexAttribPointer programInfo.attribLocations.vertexColor 4 GLenum.FLOAT false
    (7 * BYTES_PER_ELEMENT) (3 * BYTES_PER_ELEMENT)
  let gl := gl.enableVertexAttribArray programInfo.attribLocations.vertexColor
  gl.drawArrays GLenum.TRIANGLE_FAN 0 4

/-- The method `Array.prototype.forEach` for a callback that acts on the context: the
callback runs once per element, first element first. -/
def forEach {α : Type} (f : α → GLState → GLState) : List α → GLState → GLState
  | [], gl => gl
  | x :: xs, gl => forEach f xs (f x gl)

/-- The two mutable things of the script: the array `rectangles` and the context. -/
structure Program where
  rectangles : List Shape
  gl : GLState

/-- Line 109: `rectangles` is sorted in place. -/
def depthSort (p : Program) : Program :=
  { p with rectangles := sort comparefn p.rectangles }

/-- Lines 130-133: clear the canvas, then draw every entry of `rectangles`. -/
def drawSequence (fround : ℚ → ℚ) (programInfo : ProgramInfo) (p : Program) : Program :=
  { p with
    gl := forEach (drawRectangle fround programInfo) p.rectangles
      ((p.gl.clearColor 0.0 0.0 0.0 1.0).clear GLenum.COLOR_BUFFER_BIT) }

/-- Lines 72-133 from a context `gl` on which the pipeline is set up. -/
def main (fround : ℚ → ℚ) (programInfo : ProgramInfo) (gl : GLState) : Program :=
  drawSequence fround programInfo (depthSort { rectangles := rectangles, gl := gl })

/-- The calls made between state `gl` and the later state `gl1`. -/
def issued (gl gl1 : GLState) : List GLCall := gl1.calls.drop gl.calls.length

/-- The data of the `bufferData` calls of a log, in order. -/
def uploads (cs : List GLCall) : List (List ℚ) :=
  cs.filterMap fun c =>
    match c with
    | GLCall.bufferData _ data _ => some data
    | _ => none

/-- The `createBuffer` calls of a log. -/
def allocations (cs : List GLCall) : List GLCall :=
  cs.filter fun c =>
    match c with
    | GLCall.createBuffer _ => true
    | _ => false

/-- The `drawArrays` calls of a log. -/
def draws (cs : List GLCall) : List GLCall :=
  cs.filter fun c =>
    match c with
    | GLCall.drawArrays _ _ _ => true
    | _ => false

/-- The `vertexAttribPointer` calls of a log. -/
def attribPointers (cs : List GLCall) : List GLCall :=
  cs.filter fun c =>
    match c with
    | GLCall.vertexAttribPointer _ _ _ _ _ _ => true
    | _ => false

/-- A call with the name of its buffer forgotten. -/
def GLCall.eraseName : GLCall → GLCall
  | GLCall.createBuffer _ => GLCall.createBuffer 0
  | GLCall.bindBuffer target _ => GLCall.bindBuffer target 0
  | c => c

/-- The eight calls of one `drawRectangle` that starts when `n` buffers exist. -/
def rectangleCalls (fround : ℚ → ℚ) (programInfo : ProgramInfo) (rect : Shape) (n : Nat) :
    List GLCall :=
  [GLCall.createBuffer n,
   GLCall.bindBuffer GLenum.ARRAY_BUFFER n,
   GLCall.bufferData GLenum.ARRAY_BUFFER (Float32Array fround rect.vertices) GLenum.STATIC_DRAW,
   GLCall.vertexAttribPointer programInfo.attribLocations.vertexPosition 3 GLenum.FLOAT false 28 0,
   GLCall.enableVertexAttribArray programInfo.attribLocations.vertexPosition,
   GLCall.vertexAttribPointer programInfo.attribLocations.vertexColor 4 GLenum.FLOAT false 28 12,
   GLCall.enableVertexAttribArray programInfo.attribLocations.vertexColor,
   GLCall.drawArrays GLenum.TRIANGLE_FAN 0 4]

/-- The calls of `forEach(drawRectangle)` over `l` when it starts with `n` buffers in
existence: eight per shape, each shape with the next fresh buffer. -/
def loopCalls (fround : ℚ → ℚ) (programInfo : ProgramInfo) : List Shape → Nat → List GLCall
  | [], _ => []
  | s :: ss, n => rectangleCalls fround programInfo s n ++ loopCalls fround programInfo ss (n + 1)

/-- A context right after creation, with `n` attribute slots: nothing bound, no buffer,
every attribute array disabled, no call made. -/
def GLState.initial (n : Nat) : GLState :=
  { MAX_VERTEX_ATTRIBS := n
    nextBuffer := 0
    arrayBuffer := none
    elementArrayBuffer := none
    bufferStore := fun _ => none
    attribs := fun _ =>
      { enabled := false, buffer := none, size := 4, type := GLenum.FLOAT, normalized := false,
        stride := 0, offset := 0 }
    colorClearValue := (0, 0, 0, 0)
    calls := [] }

/-! ## Lemmas on the sort -/

theorem insertSorted_perm {α : Type} (cmp : α → α → Option ℚ) (x : α) (l : List α) :
    (insertSorted cmp x l).Perm (x :: l) := by
  induction l with
  | nil => exact List.Perm.refl _
  | cons y ys ih =>
    unfold insertSorted
    split
    · exact ((List.Perm.cons y ih).trans (List.Perm.swap x y ys))
    · exact List.Perm.refl _

theorem sort_perm {α : Type} (cmp : α → α → Option ℚ) (l : List α) :
    (sort cmp l).Perm l := by
  induction l with
  | nil => exact List.Perm.refl _
  | cons x xs ih =>
    exact (insertSorted_perm cmp x (sort cmp xs)).trans (List.Perm.cons x ih)

theorem sortCompare_comparefn {a b : Shape} {p q : ℚ} (ha : depth a = some p)
    (hb : depth b = some q) : SortCompare comparefn a b = p - q := by
  unfold depth at ha hb
  simp [SortCompare, comparefn, ha, hb]

theorem sortCompare_comparefn_skew (a b : Shape) :
    SortCompare comparefn a b = - SortCompare comparefn b a := by
  unfold SortCompare comparefn
  cases ha : a.vertices[2]? <;> cases hb : b.vertices[2]? <;> simp


theorem insertSorted_head {α : Type} (cmp : α → α → Option ℚ) (x : α) (l : List α)
    (h : ∀ y ∈ l.head?, ¬ 0 < SortCompare cmp x y) : insertSorted cmp x l = x :: l := by
  cases l with
  | nil => rfl
  | cons y ys =>
    have hy := h y (by simp)
    simp [insertSorted, hy]

theorem sort_eq_self_of_chain {α : Type} (cmp : α → α → Option ℚ) (l : List α)
    (h : List.Chain' (fun a b => ¬ 0 < SortCompare cmp a b) l) : sort cmp l = l := by
  induction l with
  | nil => rfl
  | cons x xs ih =>
    rw [sort, ih h.tail]
    apply insertSorted_head
    intro y hy
    exact h.rel_head? hy

theorem insertSorted_chain {α : Type} (cmp : α → α → Option ℚ)
    (hskew : ∀ a b, SortCompare cmp a b = - SortCompare cmp b a) (x : α) (l : List α)
    (h : List.Chain' (fun a b => ¬ 0 < SortCompare cmp a b) l) :
    List.Chain' (fun a b => ¬ 0 < SortCompare cmp a b) (insertSorted cmp x l) := by
  induction l with
  | nil => simp [insertSorted]
  | cons y ys ih =>
    unfold insertSorted
    split
    · rename_i hxy
      have ih' := ih h.tail
      rw [List.chain'_cons']
      refine ⟨?_, ih'⟩
      intro z hz
      cases ys with
      | nil =>
        simp [insertSorted] at hz
        subst hz
        rw [hskew]; linarith
      | cons w ws =>
        unfold insertSorted at hz
        split at hz
        · simp at hz
          subst hz
          exact (List.chain'_cons.mp h).1
        · simp at hz
          subst hz
          rw [hskew]; linarith
    · rename_i hxy
      exact List.chain'_cons.mpr ⟨hxy, h⟩

theorem sort_chain {α : Type} (cmp : α → α → Option ℚ)
    (hskew : ∀ a b, SortCompare cmp a b = - SortCompare cmp b a) (l : List α) :
    List.Chain' (fun a b => ¬ 0 < SortCompare cmp a b) (sort cmp l) := by
  induction l with
  | nil => simp [sort]
  | cons x xs ih => exact insertSorted_chain cmp hskew x _ ih


/-! ## Lemmas on the calls of the context -/

theorem vertexAttribPointer_calls (gl : GLState) (index : Int) (size : Nat) (type : GLenum)
    (normalized : Bool) (stride offset : Nat) :
    (gl.vertexAttribPointer index size type normalized stride offset).calls
      = gl.calls ++ [GLCall.vertexAttribPointer index size type normalized stride offset] := by
  unfold GLState.vertexAttribPointer
  split <;> rfl

theorem vertexAttribPointer_nextBuffer (gl : GLState) (index : Int) (size : Nat)
    (type : GLenum) (normalized : Bool) (stride offset : Nat) :
    (gl.vertexAttribPointer index size type normalized stride offset).nextBuffer
      = gl.nextBuffer := by
  unfold GLState.vertexAttribPointer
  split <;> rfl

theorem enableVertexAttribArray_calls (gl : GLState) (index : Int) :
    (gl.enableVertexAttribArray index).calls
      = gl.calls ++ [GLCall.enableVertexAttribArray index] := by
  unfold GLState.enableVertexAttribArray
  split <;> rfl

theorem enableVertexAttribArray_nextBuffer (gl : GLState) (index : Int) :
    (gl.enableVertexAttribArray index).nextBuffer = gl.nextBuffer := by
  unfold GLState.enableVertexAttribArray
  split <;> rfl

theorem bufferData_calls (gl : GLState) (target : GLenum) (data : List ℚ) (usage : GLenum) :
    (gl.bufferData target data usage).calls
      = gl.calls ++ [GLCall.bufferData target data usage] := by
  unfold GLState.bufferData
  split <;> rfl

theorem bufferData_nextBuffer (gl : GLState) (target : GLenum) (data : List ℚ)
    (usage : GLenum) : (gl.bufferData target data usage).nextBuffer = gl.nextBuffer := by
  unfold GLState.bufferData
  split <;> rfl

theorem bindBuffer_calls (gl : GLState) (target : GLenum) (buffer : Nat) :
    (gl.bindBuffer target buffer).calls = gl.calls ++ [GLCall.bindBuffer target buffer] := by
  unfold GLState.bindBuffer
  split <;> rfl

theorem bindBuffer_nextBuffer (gl : GLState) (target : GLenum) (buffer : Nat) :
    (gl.bindBuffer target buffer).nextBuffer = gl.nextBuffer := by
  unfold GLState.bindBuffer
  split <;> rfl

theorem drawRectangle_calls (fround : ℚ → ℚ) (programInfo : ProgramInfo) (rect : Shape)
    (gl : GLState) :
    (drawRectangle fround programInfo rect gl).calls
      = gl.calls ++ rectangleCalls fround programInfo rect gl.nextBuffer := by
  simp [drawRectangle, GLState.drawArrays, vertexAttribPointer_calls,
    enableVertexAttribArray_calls, bufferData_calls, bindBuffer_calls, GLState.createBuffer,
    rectangleCalls, BYTES_PER_ELEMENT]

theorem drawRectangle_nextBuffer (fround : ℚ → ℚ) (programInfo : ProgramInfo) (rect : Shape)
    (gl : GLState) :
    (drawRectangle fround programInfo rect gl).nextBuffer = gl.nextBuffer + 1 := by
  simp [drawRectangle, GLState.drawArrays, vertexAttribPointer_nextBuffer,
    enableVertexAttribArray_nextBuffer, bufferData_nextBuffer, bindBuffer_nextBuffer,
    GLState.createBuffer]


/-! ## Order of the sorted collection -/

theorem depthLE_trans : IsTrans Shape DepthLE :=
  ⟨by
    rintro a b c ⟨p, q, hp, hq, hpq⟩ ⟨q', r, hq', hr, hqr⟩
    rw [hq] at hq'
    cases hq'
    exact ⟨p, r, hp, hr, le_trans hpq hqr⟩⟩

theorem depthLE_of_not_pos {a b : Shape} (ha : (depth a).isSome) (hb : (depth b).isSome)
    (h : ¬ 0 < SortCompare comparefn a b) : DepthLE a b := by
  obtain ⟨p, hp⟩ := Option.isSome_iff_exists.mp ha
  obtain ⟨q, hq⟩ := Option.isSome_iff_exists.mp hb
  rw [sortCompare_comparefn hp hq] at h
  exact ⟨p, q, hp, hq, by linarith⟩

theorem sort_chain_depthLE (l : List Shape) (hl : ∀ s ∈ l, (depth s).isSome) :
    List.Chain' DepthLE (sort comparefn l) := by
  have h := (sort_chain comparefn sortCompare_comparefn_skew l)
  rw [List.Chain'.iff_mem] at h
  refine h.imp ?_
  rintro a b ⟨ha, hb, hab⟩
  exact depthLE_of_not_pos (hl a ((sort_perm comparefn l).mem_iff.mp ha))
    (hl b ((sort_perm comparefn l).mem_iff.mp hb)) hab

theorem sort_pairwise_depthLE (l : List Shape) (hl : ∀ s ∈ l, (depth s).isSome) :
    List.Pairwise DepthLE (sort comparefn l) := by
  haveI := depthLE_trans
  exact List.chain'_iff_pairwise.mp (sort_chain_depthLE l hl)

/-! ## The sort is the stable sort -/

theorem depth_ne_of_pos {x y : Shape} (h : 0 < SortCompare comparefn x y) :
    depth x ≠ depth y := by
  intro hxy
  unfold SortCompare comparefn at h
  unfold depth at hxy
  cases hx : x.vertices[2]? with
  | none => simp [hx] at h
  | some p =>
    rw [hx] at hxy
    simp [hx, ← hxy] at h

theorem insertSorted_filter_depth (o : Option ℚ) (x : Shape) (l : List Shape) :
    (insertSorted comparefn x l).filter (fun s => decide (depth s = o))
      = (x :: l).filter (fun s => decide (depth s = o)) := by
  induction l with
  | nil => rfl
  | cons y ys ih =>
    unfold insertSorted
    split
    · rename_i hxy
      have hne := depth_ne_of_pos hxy
      rw [List.filter_cons, ih]
      by_cases hx : depth x = o
      · have hy : ¬ depth y = o := fun hy => hne (hx.trans hy.symm)
        simp [List.filter_cons, hx, hy]
      · simp [List.filter_cons, hx]
    · rfl

theorem sort_filter_depth (o : Option ℚ) (l : List Shape) :
    (sort comparefn l).filter (fun s => decide (depth s = o))
      = l.filter (fun s => decide (depth s = o)) := by
  induction l with
  | nil => rfl
  | cons x xs ih =>
    rw [sort, insertSorted_filter_depth, List.filter_cons, List.filter_cons, ih]

theorem eq_of_pairwise_of_filter_depth (l₁ l₂ : List Shape)
    (hd₁ : ∀ s ∈ l₁, (depth s).isSome) (hd₂ : ∀ s ∈ l₂, (depth s).isSome)
    (h₁ : List.Pairwise DepthLE l₁) (h₂ : List.Pairwise DepthLE l₂)
    (hf : ∀ o : Option ℚ, l₁.filter (fun s => decide (depth s = o))
        = l₂.filter (fun s => decide (depth s = o))) : l₁ = l₂ := by
  induction l₁ generalizing l₂ with
  | nil =>
    cases l₂ with
    | nil => rfl
    | cons b u =>
      have h := hf (depth b)
      simp [List.filter_cons] at h
  | cons a t ih =>
    cases l₂ with
    | nil =>
      have h := hf (depth a)
      simp [List.filter_cons] at h
    | cons b u =>
      have hab : a = b := by
        by_cases hd : depth b = depth a
        · have h := hf (depth a)
          simp [List.filter_cons, hd] at h
          exact h.1
        · exfalso
          have hb : b ∈ (a :: t).filter (fun s => decide (depth s = depth b)) := by
            rw [hf (depth b)]
            simp [List.filter_cons]
          have ha : a ∈ (b :: u).filter (fun s => decide (depth s = depth a)) := by
            rw [← hf (depth a)]
            simp [List.filter_cons]
          have hbt : b ∈ t := by
            rcases List.mem_cons.mp (List.mem_filter.mp hb).1 with h | h
            · exact absurd (by rw [h]) hd
            · exact h
          have hau : a ∈ u := by
            rcases List.mem_cons.mp (List.mem_filter.mp ha).1 with h | h
            · exact absurd (by rw [h]) hd
            · exact h
          obtain ⟨p, q, hp, hq, hpq⟩ := List.rel_of_pairwise_cons h₁ hbt
          obtain ⟨q', p', hq', hp', hqp⟩ := List.rel_of_pairwise_cons h₂ hau
          rw [hq] at hq'
          rw [hp] at hp'
          cases hq'
          cases hp'
          exact hd (by rw [hp, hq, le_antisymm hpq hqp])
      subst hab
      congr 1
      refine ih u (fun s hs => hd₁ s (List.mem_cons_of_mem _ hs))
        (fun s hs => hd₂ s (List.mem_cons_of_mem _ hs)) (List.Pairwise.of_cons h₁)
        (List.Pairwise.of_cons h₂) ?_
      intro o
      have h := hf o
      by_cases ha : depth a = o
      · simpa [List.filter_cons, ha] using h
      · simpa [List.filter_cons, ha] using h

/-- For shapes that all have a depth, a list in ascending depth order that lists, for
every depth, the shapes of that depth in the order of the input `l` is `sort comparefn l`:
every stable sort by depth returns what the model returns. -/
theorem sort_unique (l l₁ : List Shape) (hl : ∀ s ∈ l, (depth s).isSome)
    (hl₁ : ∀ s ∈ l₁, (depth s).isSome) (hs : List.Pairwise DepthLE l₁)
    (hf : ∀ o : Option ℚ, l₁.filter (fun s => decide (depth s = o))
        = l.filter (fun s => decide (depth s = o))) : l₁ = sort comparefn l :=
  eq_of_pairwise_of_filter_depth l₁ (sort comparefn l) hl₁
    (fun s hs => hl s ((sort_perm comparefn l).mem_iff.mp hs)) hs (sort_pairwise_depthLE l hl)
    (fun o => (hf o).trans (sort_filter_depth o l).symm)

/-- C1: for every list of shapes whose depths `vertices[2]` are all numbers, in the list
sorted by `(a, b) => a.vertices[2] - b.vertices[2]` the shapes at every two adjacent
positions `i` and `i + 1` have depths `p` and `q` with `p ≤ q`. -/
theorem sort_adjacent_depth_le (l : List Shape) (hl : ∀ s ∈ l, (depth s).isSome)
    (i : Nat) (a b : Shape) (ha : (sort comparefn l)[i]? = some a)
    (hb : (sort comparefn l)[i + 1]? = some b) :
    ∃ p q : ℚ, depth a = some p ∧ depth b = some q ∧ p ≤ q := by
  have hp := sort_pairwise_depthLE l hl
  rw [List.pairwise_iff_getElem] at hp
  obtain ⟨hi, rfl⟩ := List.getElem?_eq_some.mp ha
  obtain ⟨hj, rfl⟩ := List.getElem?_eq_some.mp hb
  exact hp i (i + 1) hi hj (Nat.lt_succ_self i)

theorem sort_adjacent_depth_le_witness :
    ∃ p q : ℚ, depth red = some p ∧ depth green = some q ∧ p ≤ q :=
  sort_adjacent_depth_le [pink, blue, green, red] (by decide) 0 red green
    (by norm_num [sort, insertSorted, SortCompare, comparefn, red, green, blue, pink])
    (by norm_num [sort, insertSorted, SortCompare, comparefn, red, green, blue, pink])


/-- C2: the depth sort only reorders. The sorted list is a permutation of the input: it
has the same length, every shape occurs in it as often as in the input and the same
shapes, vertex data included, are its members; the context is not touched. -/
theorem depthSort_only_reorders (p : Program) :
    (depthSort p).rectangles = sort comparefn p.rectangles
      ∧ (depthSort p).rectangles.Perm p.rectangles
      ∧ (depthSort p).rectangles.length = p.rectangles.length
      ∧ (∀ s : Shape, (depthSort p).rectangles.count s = p.rectangles.count s)
      ∧ (∀ s : Shape, s ∈ (depthSort p).rectangles ↔ s ∈ p.rectangles)
      ∧ (depthSort p).gl.calls = p.gl.calls := by
  have h : (depthSort p).rectangles.Perm p.rectangles := sort_perm comparefn p.rectangles
  exact ⟨rfl, h, h.length_eq, fun s => h.count_eq s, fun s => h.mem_iff, rfl⟩

theorem not_pos_of_depthLE {a b : Shape} (h : DepthLE a b) :
    ¬ 0 < SortCompare comparefn a b := by
  obtain ⟨p, q, hp, hq, hpq⟩ := h
  rw [sortCompare_comparefn hp hq]
  linarith

/-- C3: sorting is idempotent. For every list of shapes, ties and missing depths
included, sorting the sorted list gives the sorted list back; and a list in which every
two adjacent shapes are already in ascending depth order is returned as it is. -/
theorem sort_idempotent (l : List Shape) :
    sort comparefn (sort comparefn l) = sort comparefn l
      ∧ (List.Chain' DepthLE l → sort comparefn l = l) :=
  ⟨sort_eq_self_of_chain comparefn _ (sort_chain comparefn sortCompare_comparefn_skew l),
   fun h => sort_eq_self_of_chain comparefn l (h.imp fun _ _ hab => not_pos_of_depthLE hab)⟩

theorem sort_idempotent_witness :
    sort comparefn [red, { vertices := [0.5, 0.5, -0.6] }, green]
      = [red, { vertices := [0.5, 0.5, -0.6] }, green] :=
  (sort_idempotent [red, { vertices := [0.5, 0.5, -0.6] }, green]).2
    (List.chain'_cons.mpr ⟨⟨-0.6, -0.6, rfl, rfl, le_refl _⟩,
      List.chain'_cons.mpr ⟨⟨-0.6, -0.3, rfl, rfl, by norm_num⟩, List.chain'_singleton _⟩⟩)

theorem eq_of_perm_of_pairwise_depthLE {l₁ l₂ : List Shape} (hp : l₁.Perm l₂)
    (h₁ : List.Pairwise DepthLE l₁) (h₂ : List.Pairwise DepthLE l₂)
    (hinj : ∀ a ∈ l₁, ∀ b ∈ l₁, depth a = depth b → a = b) : l₁ = l₂ := by
  let R : Shape → Shape → Prop := fun a b => DepthLE a b ∧ (depth a = depth b → a = b)
  have hanti : IsAntisymm Shape R :=
    ⟨by
      rintro a b ⟨⟨p, q, hp, hq, hpq⟩, hab⟩ ⟨⟨q', p', hq', hp', hqp⟩, _⟩
      rw [hq] at hq'
      rw [hp] at hp'
      cases hq'
      cases hp'
      exact hab (by rw [hp, hq, le_antisymm hpq hqp])⟩
  have hs₁ : List.Sorted R l₁ :=
    List.Pairwise.imp_of_mem (fun {a b} ha hb hab => ⟨hab, hinj a ha b hb⟩) h₁
  have hs₂ : List.Sorted R l₂ :=
    List.Pairwise.imp_of_mem
      (fun {a b} ha hb hab => ⟨hab, hinj a (hp.mem_iff.mpr ha) b (hp.mem_iff.mpr hb)⟩) h₂
  exact List.eq_of_perm_of_sorted hp hs₁ hs₂

theorem depth_injOn_rectangles :
    ∀ a ∈ rectangles, ∀ b ∈ rectangles, depth a = depth b → a = b := by
  intro a ha b hb
  simp only [rectangles, List.mem_cons, List.mem_singleton, List.not_mem_nil, or_false] at ha hb
  rcases ha with rfl | rfl | rfl | rfl <;> rcases hb with rfl | rfl | rfl | rfl <;>
    first
    | (intro _; rfl)
    | (intro h; exfalso; revert h; norm_num [depth, red, green, blue, pink])

theorem rectangles_pairwise_depthLE : List.Pairwise DepthLE [red, green, blue, pink] := by
  have hrg : DepthLE red green := ⟨-0.6, -0.3, rfl, rfl, by norm_num⟩
  have hgb : DepthLE green blue := ⟨-0.3, 0.0, rfl, rfl, by norm_num⟩
  have hbp : DepthLE blue pink := ⟨0.0, 0.3, rfl, rfl, by norm_num⟩
  haveI := depthLE_trans
  exact List.chain'_iff_pairwise.mp
    (List.chain'_cons.mpr ⟨hrg, List.chain'_cons.mpr ⟨hgb,
      List.chain'_cons.mpr ⟨hbp, List.chain'_singleton _⟩⟩⟩)

theorem depth_isSome_rectangles : ∀ s ∈ rectangles, (depth s).isSome := by decide

/-- C4: from each of the 24 orderings of the four literal rectangles, whose depths are
-0.6, -0.3, 0.0 and 0.3, the depth sort produces the order red, green, blue, pink. -/
theorem sort_rectangles_order (l : List Shape) (hl : l.Perm rectangles) :
    sort comparefn l = [red, green, blue, pink]
      ∧ (sort comparefn l).map depth = [some (-0.6), some (-0.3), some 0.0, some 0.3] := by
  have hdef : ∀ s ∈ l, (depth s).isSome := fun s hs =>
    depth_isSome_rectangles s (hl.mem_iff.mp hs)
  have hperm : (sort comparefn l).Perm [red, green, blue, pink] :=
    (sort_perm comparefn l).trans hl
  have hinj : ∀ a ∈ sort comparefn l, ∀ b ∈ sort comparefn l, depth a = depth b → a = b :=
    fun a ha b hb => depth_injOn_rectangles a (hperm.mem_iff.mp ha) b (hperm.mem_iff.mp hb)
  have h := eq_of_perm_of_pairwise_depthLE hperm (sort_pairwise_depthLE l hdef)
    rectangles_pairwise_depthLE hinj
  rw [h]
  exact ⟨rfl, rfl⟩

theorem sort_rectangles_order_witness :
    sort comparefn [pink, blue, green, red] = [red, green, blue, pink]
      ∧ (sort comparefn [pink, blue, green, red]).map depth
        = [some (-0.6), some (-0.3), some 0.0, some 0.3] :=
  sort_rectangles_order [pink, blue, green, red] (List.reverse_perm rectangles)


/-! ## The vertex data -/

theorem issued_drawRectangle (fround : ℚ → ℚ) (programInfo : ProgramInfo) (rect : Shape)
    (gl : GLState) :
    issued gl (drawRectangle fround programInfo rect gl)
      = rectangleCalls fround programInfo rect gl.nextBuffer := by
  rw [issued, drawRectangle_calls, List.drop_left]

theorem length_rectangles : ∀ s ∈ rectangles, s.vertices.length = 28 := by decide

/-- C5: every shape of `rectangles`, in the source order and after the depth sort, has
a flat vertex list of exactly 28 numbers, and `drawRectangle` uploads for it, from any
state of the context, exactly one buffer, of exactly 28 values. -/
theorem rectangles_buffer_length (fround : ℚ → ℚ) (programInfo : ProgramInfo)
    (gl : GLState) (s : Shape) (hs : s ∈ rectangles ∨ s ∈ sort comparefn rectangles) :
    s.vertices.length = 28
      ∧ uploads (issued gl (drawRectangle fround programInfo s gl))
          = [Float32Array fround s.vertices]
      ∧ (Float32Array fround s.vertices).length = 28 := by
  have hmem : s ∈ rectangles := by
    rcases hs with h | h
    · exact h
    · exact (sort_perm comparefn rectangles).mem_iff.mp h
  have hlen := length_rectangles s hmem
  refine ⟨hlen, ?_, ?_⟩
  · rw [issued_drawRectangle]
    rfl
  · rw [Float32Array, List.length_map, hlen]

theorem rectangles_buffer_length_witness :
    pink.vertices.length = 28
      ∧ uploads (issued (GLState.initial 8)
          (drawRectangle id { attribLocations := { vertexPosition := 0, vertexColor := 1 } }
            pink (GLState.initial 8)))
          = [Float32Array id pink.vertices]
      ∧ (Float32Array id pink.vertices).length = 28 :=
  rectangles_buffer_length id { attribLocations := { vertexPosition := 0, vertexColor := 1 } }
    (GLState.initial 8) pink
    (Or.inr (by norm_num [sort, insertSorted, SortCompare, comparefn, rectangles, red, green,
      blue, pink]))

/-- C6: in each of the four literal shapes the four vertices share their z and their
colour: for every vertex number `i` below 4, component `7i+2` equals component 2 and the
components `7i+3 .. 7i+6` equal the components `3 .. 6`; hence the depth the comparator
reads, a number, is the z of every vertex of the shape. -/
theorem rectangles_shared_depth_colour (s : Shape) (hs : s ∈ rectangles) (i : Nat)
    (hi : i < 4) :
    s.vertices[7 * i + 2]? = s.vertices[2]?
      ∧ (s.vertices.drop (7 * i + 3)).take 4 = (s.vertices.drop 3).take 4
      ∧ ((s.vertices.drop 3).take 4).length = 4
      ∧ (depth s).isSome
      ∧ s.vertices[7 * i + 2]? = depth s := by
  simp only [rectangles, List.mem_cons, List.mem_singleton, List.not_mem_nil, or_false] at hs
  rcases hs with rfl | rfl | rfl | rfl <;> interval_cases i <;>
    exact ⟨rfl, rfl, rfl, rfl, rfl⟩

theorem rectangles_shared_depth_colour_witness :
    green.vertices[7 * 3 + 2]? = green.vertices[2]?
      ∧ (green.vertices.drop (7 * 3 + 3)).take 4 = (green.vertices.drop 3).take 4
      ∧ ((green.vertices.drop 3).take 4).length = 4
      ∧ (depth green).isSome
      ∧ green.vertices[7 * 3 + 2]? = depth green :=
  rectangles_shared_depth_colour green (by simp [rectangles]) 3 (by decide)


/-! ## The draw loop -/

theorem forEach_drawRectangle_calls (fround : ℚ → ℚ) (programInfo : ProgramInfo)
    (l : List Shape) (gl : GLState) :
    (forEach (drawRectangle fround programInfo) l gl).calls
      = gl.calls ++ loopCalls fround programInfo l gl.nextBuffer := by
  induction l generalizing gl with
  | nil => simp [forEach, loopCalls]
  | cons s ss ih =>
    rw [forEach, ih, drawRectangle_calls, drawRectangle_nextBuffer, loopCalls,
      List.append_assoc]

theorem issued_forEach (fround : ℚ → ℚ) (programInfo : ProgramInfo) (l : List Shape)
    (gl : GLState) :
    issued gl (forEach (drawRectangle fround programInfo) l gl)
      = loopCalls fround programInfo l gl.nextBuffer := by
  rw [issued, forEach_drawRectangle_calls, List.drop_left]

theorem uploads_append (xs ys : List GLCall) : uploads (xs ++ ys) = uploads xs ++ uploads ys := by
  simp [uploads, List.filterMap_append]

theorem draws_append (xs ys : List GLCall) : draws (xs ++ ys) = draws xs ++ draws ys := by
  simp [draws, List.filter_append]

theorem allocations_append (xs ys : List GLCall) :
    allocations (xs ++ ys) = allocations xs ++ allocations ys := by
  simp [allocations, List.filter_append]

theorem attribPointers_append (xs ys : List GLCall) :
    attribPointers (xs ++ ys) = attribPointers xs ++ attribPointers ys := by
  simp [attribPointers, List.filter_append]

theorem uploads_loopCalls (fround : ℚ → ℚ) (programInfo : ProgramInfo) (l : List Shape)
    (n : Nat) :
    uploads (loopCalls fround programInfo l n)
      = l.map fun s => Float32Array fround s.vertices := by
  induction l generalizing n with
  | nil => rfl
  | cons s ss ih =>
    rw [loopCalls, uploads_append, ih, List.map_cons]
    rfl

theorem draws_loopCalls (fround : ℚ → ℚ) (programInfo : ProgramInfo) (l : List Shape)
    (n : Nat) :
    draws (loopCalls fround programInfo l n)
      = List.replicate l.length (GLCall.drawArrays GLenum.TRIANGLE_FAN 0 4) := by
  induction l generalizing n with
  | nil => rfl
  | cons s ss ih =>
    rw [loopCalls, draws_append, ih, List.length_cons, List.replicate_succ]
    rfl

theorem allocations_loopCalls (fround : ℚ → ℚ) (programInfo : ProgramInfo) (l : List Shape)
    (n : Nat) :
    allocations (loopCalls fround programInfo l n)
      = (List.range' n l.length).map GLCall.createBuffer := by
  induction l generalizing n with
  | nil => rfl
  | cons s ss ih =>
    rw [loopCalls, allocations_append, ih, List.length_cons, List.range'_succ, List.map_cons]
    rfl

theorem length_loopCalls (fround : ℚ → ℚ) (programInfo : ProgramInfo) (l : List Shape)
    (n : Nat) : (loopCalls fround programInfo l n).length = 8 * l.length := by
  induction l generalizing n with
  | nil => rfl
  | cons s ss ih =>
    rw [loopCalls, List.length_append, ih, List.length_cons]
    simp [rectangleCalls]
    omega

theorem eraseName_loopCalls (fround : ℚ → ℚ) (programInfo : ProgramInfo) (l : List Shape)
    (n m : Nat) :
    (loopCalls fround programInfo l n).map GLCall.eraseName
      = (loopCalls fround programInfo l m).map GLCall.eraseName := by
  induction l generalizing n m with
  | nil => rfl
  | cons s ss ih =>
    rw [loopCalls, loopCalls, List.map_append, List.map_append, ih (n + 1) (m + 1)]
    rfl

/-- C7: the draw loop over the sorted collection makes, per shape and in sorted order,
one buffer allocation, one upload and one draw call. From any state of the context its
calls are the eight calls of `drawRectangle` for each shape of the sorted collection in
turn; the uploaded buffers are the converted vertex lists of the sorted collection, in
order; every allocation returns a fresh buffer; allocations, uploads and draws each
number as many as there are shapes, 4 draws for the literal data; and when every shape
has a depth, a shape drawn earlier never has the greater depth. -/
theorem forEach_draws_sorted (fround : ℚ → ℚ) (programInfo : ProgramInfo) (c : List Shape)
    (gl : GLState) :
    issued gl (forEach (drawRectangle fround programInfo) (sort comparefn c) gl)
        = loopCalls fround programInfo (sort comparefn c) gl.nextBuffer
      ∧ uploads (issued gl (forEach (drawRectangle fround programInfo) (sort comparefn c) gl))
        = (sort comparefn c).map (fun s => Float32Array fround s.vertices)
      ∧ allocations (issued gl (forEach (drawRectangle fround programInfo) (sort comparefn c) gl))
        = (List.range' gl.nextBuffer c.length).map GLCall.createBuffer
      ∧ draws (issued gl (forEach (drawRectangle fround programInfo) (sort comparefn c) gl))
        = List.replicate c.length (GLCall.drawArrays GLenum.TRIANGLE_FAN 0 4)
      ∧ (uploads (issued gl
          (forEach (drawRectangle fround programInfo) (sort comparefn c) gl))).length = c.length
      ∧ (issued gl (forEach (drawRectangle fround programInfo) (sort comparefn c) gl)).length
        = 8 * c.length
      ∧ (draws (issued gl (main fround programInfo gl).gl)).length = 4
      ∧ ((∀ s ∈ c, (depth s).isSome) → ∀ (i j : Nat) (a b : Shape), i < j →
          (sort comparefn c)[i]? = some a → (sort comparefn c)[j]? = some b →
          ∃ p q : ℚ, depth a = some p ∧ depth b = some q ∧ p ≤ q) := by
  have hlen : (sort comparefn c).length = c.length := (sort_perm comparefn c).length_eq
  rw [issued_forEach]
  refine ⟨rfl, uploads_loopCalls _ _ _ _, ?_, ?_, ?_, ?_, ?_, ?_⟩
  · rw [allocations_loopCalls, hlen]
  · rw [draws_loopCalls, hlen]
  · rw [uploads_loopCalls, List.length_map, hlen]
  · rw [length_loopCalls, hlen]
  · have hcalls : (main fround programInfo gl).gl.calls
        = gl.calls ++ ([GLCall.clearColor 0.0 0.0 0.0 1.0, GLCall.clear GLenum.COLOR_BUFFER_BIT]
            ++ loopCalls fround programInfo (sort comparefn rectangles) gl.nextBuffer) := by
      simp [main, drawSequence, depthSort, forEach_drawRectangle_calls, GLState.clear,
        GLState.clearColor]
    rw [issued, hcalls, List.drop_left, draws_append, draws_loopCalls,
      (sort_perm comparefn rectangles).length_eq]
    rfl
  · intro hc i j a b hij ha hb
    have hp := sort_pairwise_depthLE c hc
    rw [List.pairwise_iff_getElem] at hp
    obtain ⟨hi, rfl⟩ := List.getElem?_eq_some.mp ha
    obtain ⟨hj, rfl⟩ := List.getElem?_eq_some.mp hb
    exact hp i j hi hj hij


theorem forEach_draws_sorted_witness :
    uploads (issued (GLState.initial 8)
        (forEach (drawRectangle id { attribLocations := { vertexPosition := 0, vertexColor := 1 } })
          (sort comparefn [pink, blue, green, red]) (GLState.initial 8)))
        = (sort comparefn [pink, blue, green, red]).map (fun s => Float32Array id s.vertices)
      ∧ ∃ p q : ℚ, depth red = some p ∧ depth pink = some q ∧ p ≤ q :=
  ⟨(forEach_draws_sorted id { attribLocations := { vertexPosition := 0, vertexColor := 1 } }
      [pink, blue, green, red] (GLState.initial 8)).2.1,
   (forEach_draws_sorted id { attribLocations := { vertexPosition := 0, vertexColor := 1 } }
      [pink, blue, green, red] (GLState.initial 8)).2.2.2.2.2.2.2 (by decide) 0 3 red pink
      (by decide)
      (by norm_num [sort, insertSorted, SortCompare, comparefn, red, green, blue, pink])
      (by norm_num [sort, insertSorted, SortCompare, comparefn, red, green, blue, pink])⟩

/-! ## The attribute views -/

theorem readAll_range' (data : List ℚ) (n k : Nat) (h : k + n ≤ data.length) :
    readAll data (List.range' k n) = some ((data.drop k).take n) := by
  induction n generalizing k with
  | zero => simp [readAll]
  | succ n ih =>
    have hk : k < data.length := by omega
    rw [List.range'_succ, readAll, ih (k + 1) (by omega), List.getElem?_eq_getElem hk]
    simp only
    rw [List.drop_eq_getElem_cons hk, List.take_succ_cons]

theorem attribIndices_position (i : Nat) :
    attribIndices 3 28 0 i = [7 * i, 7 * i + 1, 7 * i + 2] := by
  simp [attribIndices, BYTES_PER_ELEMENT, List.range_succ]
  omega

theorem attribIndices_colour (i : Nat) :
    attribIndices 4 28 12 i = [7 * i + 3, 7 * i + 4, 7 * i + 5, 7 * i + 6] := by
  simp [attribIndices, BYTES_PER_ELEMENT, List.range_succ]
  omega

theorem drawRectangle_state (fround : ℚ → ℚ) (programInfo : ProgramInfo) (rect : Shape)
    (gl : GLState)
    (hpos : gl.validIndex programInfo.attribLocations.vertexPosition = true)
    (hcol : gl.validIndex programInfo.attribLocations.vertexColor = true)
    (hne : programInfo.attribLocations.vertexPosition ≠ programInfo.attribLocations.vertexColor) :
    (drawRectangle fround programInfo rect gl).bufferStore gl.nextBuffer
        = some (Float32Array fround rect.vertices)
      ∧ (drawRectangle fround programInfo rect gl).attribs
          programInfo.attribLocations.vertexPosition
        = { enabled := true, buffer := some gl.nextBuffer, size := 3, type := GLenum.FLOAT,
            normalized := false, stride := 28, offset := 0 }
      ∧ (drawRectangle fround programInfo rect gl).attribs
          programInfo.attribLocations.vertexColor
        = { enabled := true, buffer := some gl.nextBuffer, size := 4, type := GLenum.FLOAT,
            normalized := false, stride := 28, offset := 12 } := by
  simp only [GLState.validIndex] at hpos hcol
  simp [drawRectangle, GLState.createBuffer, GLState.bindBuffer, GLState.bufferData,
    GLState.binding, GLState.vertexAttribPointer, GLState.enableVertexAttribArray,
    GLState.drawArrays, GLState.validIndex, BYTES_PER_ELEMENT, hpos, hcol, hne, Ne.symm hne]


theorem vertexFetch_drawRectangle (fround : ℚ → ℚ) (programInfo : ProgramInfo) (rect : Shape)
    (gl : GLState)
    (hpos : gl.validIndex programInfo.attribLocations.vertexPosition = true)
    (hcol : gl.validIndex programInfo.attribLocations.vertexColor = true)
    (hne : programInfo.attribLocations.vertexPosition ≠ programInfo.attribLocations.vertexColor)
    (i : Nat) :
    vertexFetch (drawRectangle fround programInfo rect gl)
        programInfo.attribLocations.vertexPosition i
        = readAll (Float32Array fround rect.vertices) (attribIndices 3 28 0 i)
      ∧ vertexFetch (drawRectangle fround programInfo rect gl)
          programInfo.attribLocations.vertexColor i
        = readAll (Float32Array fround rect.vertices) (attribIndices 4 28 12 i) := by
  obtain ⟨hstore, hp, hc⟩ := drawRectangle_state fround programInfo rect gl hpos hcol hne
  constructor
  · simp only [vertexFetch, hp, hstore, if_true]
  · simp only [vertexFetch, hc, hstore, if_true]

/-- C8: for every shape, from any state of the context, `drawRectangle` configures two
views, both of stride 7 floats = 28 bytes: position, 3 floats at byte offset 0, and
colour, 4 floats at byte offset 3 floats = 12 bytes. For vertex `i` below 4 the position
view reads the indices `7i .. 7i+2` and the colour view the indices `7i+3 .. 7i+6`; all
are below 28, the two ranges are disjoint and together are the 7 components of the
vertex. With 28 values uploaded and two distinct valid locations, the two attribute
arrays deliver at the draw the converted `vertices[7i .. 7i+2]` and
`vertices[7i+3 .. 7i+6]`. -/
theorem attribute_views_layout (fround : ℚ → ℚ) (programInfo : ProgramInfo) (rect : Shape)
    (gl : GLState) (i : Nat) (hi : i < 4) :
    attribPointers (issued gl (drawRectangle fround programInfo rect gl))
        = [GLCall.vertexAttribPointer programInfo.attribLocations.vertexPosition 3
             GLenum.FLOAT false (7 * BYTES_PER_ELEMENT) 0,
           GLCall.vertexAttribPointer programInfo.attribLocations.vertexColor 4
             GLenum.FLOAT false (7 * BYTES_PER_ELEMENT) (3 * BYTES_PER_ELEMENT)]
      ∧ 7 * BYTES_PER_ELEMENT = 28
      ∧ 3 * BYTES_PER_ELEMENT = 12
      ∧ attribIndices 3 (7 * BYTES_PER_ELEMENT) 0 i = [7 * i, 7 * i + 1, 7 * i + 2]
      ∧ attribIndices 4 (7 * BYTES_PER_ELEMENT) (3 * BYTES_PER_ELEMENT) i
        = [7 * i + 3, 7 * i + 4, 7 * i + 5, 7 * i + 6]
      ∧ (attribIndices 3 (7 * BYTES_PER_ELEMENT) 0 i
          ++ attribIndices 4 (7 * BYTES_PER_ELEMENT) (3 * BYTES_PER_ELEMENT) i).all
            (fun j => decide (j < 28)) = true
      ∧ List.Disjoint (attribIndices 3 (7 * BYTES_PER_ELEMENT) 0 i)
          (attribIndices 4 (7 * BYTES_PER_ELEMENT) (3 * BYTES_PER_ELEMENT) i)
      ∧ attribIndices 3 (7 * BYTES_PER_ELEMENT) 0 i
          ++ attribIndices 4 (7 * BYTES_PER_ELEMENT) (3 * BYTES_PER_ELEMENT) i
        = List.range' (7 * i) 7
      ∧ (rect.vertices.length = 28 →
          gl.validIndex programInfo.attribLocations.vertexPosition = true →
          gl.validIndex programInfo.attribLocations.vertexColor = true →
          programInfo.attribLocations.vertexPosition ≠ programInfo.attribLocations.vertexColor →
          vertexFetch (drawRectangle fround programInfo rect gl)
              programInfo.attribLocations.vertexPosition i
            = some (Float32Array fround ((rect.vertices.drop (7 * i)).take 3))
          ∧ vertexFetch (drawRectangle fround programInfo rect gl)
              programInfo.attribLocations.vertexColor i
            = some (Float32Array fround ((rect.vertices.drop (7 * i + 3)).take 4))) := by
  have h28 : 7 * BYTES_PER_ELEMENT = 28 := rfl
  have h12 : 3 * BYTES_PER_ELEMENT = 12 := rfl
  rw [h28, h12, attribIndices_position, attribIndices_colour, issued_drawRectangle]
  refine ⟨rfl, rfl, rfl, rfl, rfl, ?_, ?_, ?_, ?_⟩
  · interval_cases i <;> decide
  · intro j hj hj1
    simp only [List.mem_cons, List.mem_singleton, List.not_mem_nil, or_false] at hj hj1
    omega
  · simp [List.range'_succ]
  · intro hlen hpos hcol hne
    obtain ⟨hp, hc⟩ := vertexFetch_drawRectangle fround programInfo rect gl hpos hcol hne i
    have hdata : (Float32Array fround rect.vertices).length = 28 := by
      rw [Float32Array, List.length_map, hlen]
    have hpr : attribIndices 3 28 0 i = List.range' (7 * i) 3 := by
      rw [attribIndices_position]; rfl
    have hcr : attribIndices 4 28 12 i = List.range' (7 * i + 3) 4 := by
      rw [attribIndices_colour]; rfl
    rw [hp, hc, hpr, hcr, readAll_range' _ _ _ (by omega), readAll_range' _ _ _ (by omega)]
    simp [Float32Array, List.map_drop, List.map_take]

theorem attribute_views_layout_witness :
    vertexFetch (drawRectangle id { attribLocations := { vertexPosition := 0, vertexColor := 1 } }
        red (GLState.initial 8)) 0 3
        = some (Float32Array id ((red.vertices.drop (7 * 3)).take 3))
      ∧ vertexFetch (drawRectangle id { attribLocations := { vertexPosition := 0, vertexColor := 1 } }
          red (GLState.initial 8)) 1 3
        = some (Float32Array id ((red.vertices.drop (7 * 3 + 3)).take 4)) :=
  (attribute_views_layout id { attribLocations := { vertexPosition := 0, vertexColor := 1 } }
    red (GLState.initial 8) 3 (by decide)).2.2.2.2.2.2.2.2 rfl rfl rfl (by decide)

/-- C9: every shape contributes 4 vertices and 2 triangles. For every shape, from any
state of the context, `drawRectangle` makes exactly one draw call, a triangle fan with
first vertex 0 and count 4; the fan over these vertices is the two triangles (0,1,2) and
(0,2,3), both starting at vertex 0, and the vertices they use are 0, 1, 2 and 3. -/
theorem drawRectangle_two_triangles (fround : ℚ → ℚ) (programInfo : ProgramInfo)
    (rect : Shape) (gl : GLState) :
    draws (issued gl (drawRectangle fround programInfo rect gl))
        = [GLCall.drawArrays GLenum.TRIANGLE_FAN 0 4]
      ∧ assembleTriangles GLenum.TRIANGLE_FAN 0 4 = [(0, 1, 2), (0, 2, 3)]
      ∧ (assembleTriangles GLenum.TRIANGLE_FAN 0 4).length = 2
      ∧ (assembleTriangles GLenum.TRIANGLE_FAN 0 4).map (fun t => t.1) = [0, 0]
      ∧ ((assembleTriangles GLenum.TRIANGLE_FAN 0 4).flatMap
          (fun t => [t.1, t.2.1, t.2.2])).toFinset = {0, 1, 2, 3} := by
  rw [issued_drawRectangle]
  exact ⟨rfl, by decide, by decide, by decide, by decide⟩


/-! ## Running the draw sequence again -/

theorem attribPointers_loopCalls (fround : ℚ → ℚ) (programInfo : ProgramInfo)
    (l : List Shape) (n m : Nat) :
    attribPointers (loopCalls fround programInfo l n)
      = attribPointers (loopCalls fround programInfo l m) := by
  induction l generalizing n m with
  | nil => rfl
  | cons s ss ih =>
    rw [loopCalls, loopCalls, attribPointers_append, attribPointers_append, ih (n + 1) (m + 1)]
    rfl

theorem issued_drawSequence (fround : ℚ → ℚ) (programInfo : ProgramInfo) (p : Program) :
    issued p.gl (drawSequence fround programInfo p).gl
      = [GLCall.clearColor 0.0 0.0 0.0 1.0, GLCall.clear GLenum.COLOR_BUFFER_BIT]
        ++ loopCalls fround programInfo p.rectangles p.gl.nextBuffer := by
  have hcalls : (drawSequence fround programInfo p).gl.calls
      = p.gl.calls ++ ([GLCall.clearColor 0.0 0.0 0.0 1.0, GLCall.clear GLenum.COLOR_BUFFER_BIT]
          ++ loopCalls fround programInfo p.rectangles p.gl.nextBuffer) := by
    simp [drawSequence, forEach_drawRectangle_calls, GLState.clear, GLState.clearColor]
  rw [issued, hcalls, List.drop_left]

/-- C10: running the draw sequence a second time repeats the first. The draw sequence
leaves `rectangles` as it is; the second run makes the same calls with the same
arguments as the first, the names of the freshly created buffers apart, so the same
uploads, attribute views and draws; from any two states of the context one
`drawRectangle` of a shape makes the same calls up to the buffer name; and with two
distinct valid locations what the two attribute arrays deliver after it does not depend
on the state it started from. -/
theorem drawSequence_repeatable (fround : ℚ → ℚ) (programInfo : ProgramInfo) (p : Program) :
    (drawSequence fround programInfo p).rectangles = p.rectangles
      ∧ (drawSequence fround programInfo (drawSequence fround programInfo p)).rectangles
        = p.rectangles
      ∧ (issued (drawSequence fround programInfo p).gl
          (drawSequence fround programInfo (drawSequence fround programInfo p)).gl).map
            GLCall.eraseName
        = (issued p.gl (drawSequence fround programInfo p).gl).map GLCall.eraseName
      ∧ uploads (issued (drawSequence fround programInfo p).gl
          (drawSequence fround programInfo (drawSequence fround programInfo p)).gl)
        = uploads (issued p.gl (drawSequence fround programInfo p).gl)
      ∧ attribPointers (issued (drawSequence fround programInfo p).gl
          (drawSequence fround programInfo (drawSequence fround programInfo p)).gl)
        = attribPointers (issued p.gl (drawSequence fround programInfo p).gl)
      ∧ draws (issued (drawSequence fround programInfo p).gl
          (drawSequence fround programInfo (drawSequence fround programInfo p)).gl)
        = draws (issued p.gl (drawSequence fround programInfo p).gl)
      ∧ (∀ (rect : Shape) (gl1 gl2 : GLState),
          (issued gl1 (drawRectangle fround programInfo rect gl1)).map GLCall.eraseName
            = (issued gl2 (drawRectangle fround programInfo rect gl2)).map GLCall.eraseName)
      ∧ (∀ (rect : Shape) (gl1 gl2 : GLState) (i : Nat),
          gl1.validIndex programInfo.attribLocations.vertexPosition = true →
          gl1.validIndex programInfo.attribLocations.vertexColor = true →
          gl2.validIndex programInfo.attribLocations.vertexPosition = true →
          gl2.validIndex programInfo.attribLocations.vertexColor = true →
          programInfo.attribLocations.vertexPosition ≠ programInfo.attribLocations.vertexColor →
          vertexFetch (drawRectangle fround programInfo rect gl1)
              programInfo.attribLocations.vertexPosition i
            = vertexFetch (drawRectangle fround programInfo rect gl2)
              programInfo.attribLocations.vertexPosition i
          ∧ vertexFetch (drawRectangle fround programInfo rect gl1)
              programInfo.attribLocations.vertexColor i
            = vertexFetch (drawRectangle fround programInfo rect gl2)
              programInfo.attribLocations.vertexColor i) := by
  have hrect : (drawSequence fround programInfo p).rectangles = p.rectangles := rfl
  refine ⟨rfl, rfl, ?_, ?_, ?_, ?_, ?_, ?_⟩
  · rw [issued_drawSequence, issued_drawSequence, hrect, List.map_append, List.map_append,
      eraseName_loopCalls fround programInfo p.rectangles _ p.gl.nextBuffer]
  · rw [issued_drawSequence, issued_drawSequence, hrect, uploads_append, uploads_append,
      uploads_loopCalls, uploads_loopCalls]
  · rw [issued_drawSequence, issued_drawSequence, hrect, attribPointers_append,
      attribPointers_append,
      attribPointers_loopCalls fround programInfo p.rectangles _ p.gl.nextBuffer]
  · rw [issued_drawSequence, issued_drawSequence, hrect, draws_append, draws_append,
      draws_loopCalls, draws_loopCalls]
  · intro rect gl1 gl2
    rw [issued_drawRectangle, issued_drawRectangle]
    rfl
  · intro rect gl1 gl2 i hp1 hc1 hp2 hc2 hne
    obtain ⟨h1, h2⟩ := vertexFetch_drawRectangle fround programInfo rect gl1 hp1 hc1 hne i
    obtain ⟨h3, h4⟩ := vertexFetch_drawRectangle fround programInfo rect gl2 hp2 hc2 hne i
    exact ⟨h1.trans h3.symm, h2.trans h4.symm⟩

theorem drawSequence_repeatable_witness :
    vertexFetch (drawRectangle id { attribLocations := { vertexPosition := 0, vertexColor := 1 } }
        blue (GLState.initial 8)) 0 2
      = vertexFetch (drawRectangle id { attribLocations := { vertexPosition := 0, vertexColor := 1 } }
        blue (drawRectangle id { attribLocations := { vertexPosition := 0, vertexColor := 1 } }
          pink (GLState.initial 8))) 0 2 :=
  ((drawSequence_repeatable id { attribLocations := { vertexPosition := 0, vertexColor := 1 } }
    { rectangles := rectangles, gl := GLState.initial 8 }).2.2.2.2.2.2.2 blue (GLState.initial 8)
    (drawRectangle id { attribLocations := { vertexPosition := 0, vertexColor := 1 } }
      pink (GLState.initial 8)) 2 rfl rfl rfl rfl (by decide)).1

end HiddenS
